import Mathlib

/-!
# Verification of `src/wasm.rs` (wascap claim embedding/extraction)

Shallow embedding of the claim embedding/extraction core of the repository.
A WebAssembly module is modelled as its parsed top-level payload stream, in
scan order, exactly as the external `wasmparser` crate yields it to the code
in `src/wasm.rs`: one `codeSectionEntry` per function body, one `dataSection`
carrying the list of its data entries, one `customSection` per named custom
section, and `other` for every payload kind the code ignores.

External collaborators (the `ring` SHA-256 digest, the UTF-8 string codec of
the standard library, and the claims codec of `jwt.rs`, which is part of the
repository but not under `src/`) are modelled as the fields of an `Ext`
record; each theorem that needs one of their contracts takes that contract as
an explicit hypothesis, and the witnesses instantiate `Ext` with concrete
executable functions.
-/

deriving instance DecidableEq for Except

namespace Wascap

/-- Raw bytes (`&[u8]` / `Vec<u8>` in the source), one natural per byte. -/
abbrev Bytes := List Nat

/-- A parsed top-level payload of a module, as the `wasmparser::Payload`
cases matched in `src/wasm.rs`: `CodeSectionEntry` (one per function body,
carrying the full body bytes), `DataSection` (carrying the list of its data
entries' payload bytes), `CustomSection` (name and data), and everything
else collapsed into `other` (the code treats all remaining cases as `_`). -/
inductive Payload where
  | codeSectionEntry (body : Bytes)
  | dataSection (entries : List Bytes)
  | customSection (sectName : String) (data : Bytes)
  | other
deriving DecidableEq

/-- A module is its parsed payload stream in scan order (the order
`wasmparser::Parser::parse_all` yields payloads from the byte stream). -/
abbrev Module := List Payload

/-- The error kinds of `errors::ErrorKind` that the code in `src/wasm.rs`
can surface: the two kinds it raises itself (`InvalidModuleHash`,
`InvalidAlgorithm`), the kinds propagated from collaborators (UTF-8 decode,
claims-codec decode, claims-codec signing), and the parse failure of a
binary reader (`BinaryReaderError`, raised when `reader.read()` fails). -/
inductive ErrorKind where
  | invalidModuleHash
  | invalidAlgorithm
  | encodingError
  | invalidToken
  | signingError
  | malformedContainer
deriving DecidableEq

/-- Modelled from the spec: the claim-record metadata type `Actor` of
`jwt.rs`, which is not under `src/`. The spec requires the record to carry
at minimum a `module_hash` field (§3); the remaining fields mirror the
arguments of the signing orchestrator (§4.5): subject name, capability
list, tag list, service flag, revision, version, call alias. -/
structure Actor where
  name : String
  module_hash : String
  caps : Option (List String)
  tags : Option (List String)
  provider : Bool
  rev : Option Int
  ver : Option String
  call_alias : Option String
deriving DecidableEq

/-- Modelled from the spec: the claim record `Claims<Actor>` of `jwt.rs`,
which is not under `src/`. Carries issuer/subject identity, temporal
bounds, the revision marker `wascap_revision` consulted by the extractor,
and the optional integrity metadata. -/
structure Claims where
  id : String
  issuer : String
  subject : String
  issued_at : Nat
  expires : Option Nat
  not_before : Option Nat
  wascap_revision : Option Nat
  metadata : Option Actor
deriving DecidableEq

/-- The pair returned on successful extraction: the raw encoded token text
and the decoded claim record (`jwt::Token<Actor>`). -/
structure Token where
  jwt : String
  claims : Claims
deriving DecidableEq

/-- Modelled from the spec: the external key-pair capability (`nkeys`),
exposing a public-key accessor; signing itself is folded into the
codec's `encode` operation, as in §6 of the spec. -/
structure KeyPair where
  public_key : String
deriving DecidableEq

/-- Modelled from the spec: the external collaborators of §6, plus the two
process-wide constants of `jwt.rs` (not under `src/`) and the wall clock.
`digest` is the cryptographic digest primitive (`ring`'s SHA-256);
`strBytes`/`bytesStr` are `String::as_bytes` / `String::from_utf8`;
`decode`/`encode` are the claims codec of `jwt.rs`; `minRev` is
`MIN_WASCAP_INTERNAL_REVISION`; `wascapRev` is `WASCAP_INTERNAL_REVISION`;
`nowSecs` is the current wall-clock time in seconds since the epoch. -/
structure Ext where
  digest : Bytes → Bytes
  strBytes : String → Bytes
  bytesStr : Bytes → Except ErrorKind String
  decode : String → Except ErrorKind Claims
  encode : Claims → KeyPair → Except ErrorKind String
  minRev : Nat
  wascapRev : Nat
  nowSecs : Nat

/-- `const SECS_PER_DAY: u64 = 86400` from `src/wasm.rs`. -/
def SECS_PER_DAY : Nat := 86400

/-- The modulus of Rust's `u64` arithmetic, `2 ^ 64`. -/
def U64_MOD : Nat := 2 ^ 64

/-- `const SECTION_JWT: &str = "jwt"` from `src/wasm.rs`. -/
def SECTION_JWT : String := "jwt"

/-- `const SECTION_WC_JWT: &str = "wasmcloud_jwt"` from `src/wasm.rs`. -/
def SECTION_WC_JWT : String := "wasmcloud_jwt"

/-- The disjunction `name == SECTION_JWT || name == SECTION_WC_JWT` used by
the extractor's scan in `src/wasm.rs` line 34. -/
abbrev IsClaimName (n : String) : Prop := n = SECTION_JWT ∨ n = SECTION_WC_JWT

/-- Whether a payload is a claim-carrying custom section (a custom section
whose name is one of the two reserved names). -/
def payloadIsClaim : Payload → Bool
  | .customSection n _ => decide (IsClaimName n)
  | _ => false

/-- The uppercase-hex digit table of `data_encoding::HEXUPPER`. -/
def hexDigit (n : Nat) : Char :=
  ['0', '1', '2', '3', '4', '5', '6', '7', '8', '9', 'A', 'B', 'C', 'D', 'E', 'F'].getD n '0'

/-- `HEXUPPER.encode`: render each byte as two uppercase hexadecimal
digits, in order. -/
def hexUpper (bs : Bytes) : String :=
  ⟨bs.flatMap (fun b => [hexDigit (b / 16 % 16), hexDigit (b % 16)])⟩

/-- The accumulator loop of `compute_hash_without_jwt` (`src/wasm.rs` lines
146–167): walk the payloads, appending each code entry's full body, the
FIRST data entry of a data section (the code calls `reader.read()` exactly
once, and that read fails on an empty data section), and the data of every
custom section whose name is neither reserved claim-section name. -/
def hashAccumGo : List Payload → Bytes → Except ErrorKind Bytes
  | [], acc => .ok acc
  | .codeSectionEntry body :: rest, acc => hashAccumGo rest (acc ++ body)
  | .dataSection entries :: rest, acc =>
      match entries with
      | [] => .error .malformedContainer
      | e :: _ => hashAccumGo rest (acc ++ e)
  | .customSection n d :: rest, acc =>
      if n ≠ SECTION_JWT ∧ n ≠ SECTION_WC_JWT then hashAccumGo rest (acc ++ d)
      else hashAccumGo rest acc
  | .other :: rest, acc => hashAccumGo rest acc

/-- `compute_hash_without_jwt` (`src/wasm.rs` lines 142–171): accumulate
the tamper-relevant bytes, digest them, and render the digest as uppercase
hexadecimal. The chunked `sha256_digest` reader of the source consumes the
whole accumulator, so it is modelled as one application of the digest. -/
def compute_hash_without_jwt (E : Ext) (modbytes : Module) : Except ErrorKind String :=
  match hashAccumGo modbytes [] with
  | .error e => .error e
  | .ok binary => .ok (hexUpper (E.digest binary))

/-- The body of the extractor's claim-section branch (`src/wasm.rs` lines
35–49): UTF-8-decode the section data, decode the token, compute the hash
of the whole module, then check the recorded hash against it under the
revision threshold; a record without metadata is `InvalidAlgorithm`. -/
def processClaimSection (E : Ext) (contents : Module) (data : Bytes) :
    Except ErrorKind (Option Token) :=
  match E.bytesStr data with
  | .error e => .error e
  | .ok jwt =>
    match E.decode jwt with
    | .error e => .error e
    | .ok claims =>
      match compute_hash_without_jwt E contents with
      | .error e => .error e
      | .ok hash =>
        match claims.metadata with
        | some meta =>
            if meta.module_hash ≠ hash ∧ claims.wascap_revision.getD 0 ≥ E.minRev then
              .error .invalidModuleHash
            else
              .ok (some ⟨jwt, claims⟩)
        | none => .error .invalidAlgorithm

/-- The scan loop of `extract_claims` (`src/wasm.rs` lines 31–54): walk the
payloads; at the first custom section whose name is a reserved claim name,
return the result of processing it; ignore every other payload; return
`none` when the stream is exhausted. -/
def extractGo (E : Ext) (contents : Module) : List Payload → Except ErrorKind (Option Token)
  | [] => .ok none
  | .customSection n d :: rest =>
      if IsClaimName n then processClaimSection E contents d
      else extractGo E contents rest
  | .codeSectionEntry _ :: rest => extractGo E contents rest
  | .dataSection _ :: rest => extractGo E contents rest
  | .other :: rest => extractGo E contents rest

/-- `extract_claims` (`src/wasm.rs` lines 29–56). -/
def extract_claims (E : Ext) (contents : Module) : Except ErrorKind (Option Token) :=
  extractGo E contents contents

/-- The metadata overwrite of `embed_claims` (`src/wasm.rs` lines 68–73):
clone the record and overwrite the metadata's `module_hash` with the given
hash, leaving everything else (including an absent metadata) unchanged. -/
def withHash (claims : Claims) (hash : String) : Claims :=
  { claims with metadata := claims.metadata.map (fun md => { md with module_hash := hash }) }

/-- `embed_claims` (`src/wasm.rs` lines 64–80): hash the unmodified input,
overwrite the metadata's hash, encode (sign) the record, and append a
custom section named `SECTION_WC_JWT` carrying the encoded token's bytes
(`wasm_gen::write_custom_section` appends at the end of the module). -/
def embed_claims (E : Ext) (orig_bytecode : Module) (claims : Claims) (kp : KeyPair) :
    Except ErrorKind Module :=
  match compute_hash_without_jwt E orig_bytecode with
  | .error e => .error e
  | .ok hash =>
    match E.encode (withHash claims hash) kp with
    | .error e => .error e
    | .ok encoded =>
        .ok (orig_bytecode ++ [.customSection SECTION_WC_JWT (E.strBytes encoded)])

/-- `since_the_epoch` (`src/wasm.rs` lines 113–118), modelled on the
wall-clock parameter. -/
def since_the_epoch (E : Ext) : Nat := E.nowSecs

/-- `days_from_now_to_jwt_time` (`src/wasm.rs` lines 120–122). The source
computes `since_the_epoch().as_secs() + e * SECS_PER_DAY` in `u64`
arithmetic, which wraps modulo `2 ^ 64` on overflow (release builds; debug
builds abort there): the embedding makes the wrap explicit. -/
def days_from_now_to_jwt_time (E : Ext) (stamp : Option Nat) : Option Nat :=
  stamp.map (fun e => (since_the_epoch E + e * SECS_PER_DAY) % U64_MOD)

/-- Modelled from the spec: `Claims::<Actor>::with_dates` of `jwt.rs` (not
under `src/`), per §4.5 — build a claim record from the subject name, the
issuer and subject public keys, the capability and tag lists, the optional
temporal bounds and the remaining metadata; the token id comes from an
external id generator (modelled as empty), `issued_at` from the clock, and
the revision marker from the internal revision constant. -/
def Claims.with_dates (E : Ext) (name issuer subject : String)
    (caps tags : Option (List String)) (not_before expires : Option Nat)
    (provider : Bool) (rev : Option Int) (ver : Option String)
    (call_alias : Option String) : Claims :=
  { id := ""
    issuer := issuer
    subject := subject
    issued_at := E.nowSecs
    expires := expires
    not_before := not_before
    wascap_revision := some E.wascapRev
    metadata := some
      { name := name
        module_hash := ""
        caps := caps
        tags := tags
        provider := provider
        rev := rev
        ver := ver
        call_alias := call_alias } }

/-- `sign_buffer_with_claims` (`src/wasm.rs` lines 83–111): build the claim
record via `with_dates` — converting both day counts through
`days_from_now_to_jwt_time` — and delegate to `embed_claims` with the
account key. -/
def sign_buffer_with_claims (E : Ext) (name : String) (buf : Module)
    (mod_kp acct_kp : KeyPair) (expires_in_days not_before_days : Option Nat)
    (caps tags : List String) (provider : Bool) (rev : Option Int)
    (ver : Option String) (call_alias : Option String) : Except ErrorKind Module :=
  let claims := Claims.with_dates E name acct_kp.public_key mod_kp.public_key
    (some caps) (some tags)
    (days_from_now_to_jwt_time E not_before_days)
    (days_from_now_to_jwt_time E expires_in_days)
    provider rev ver call_alias
  embed_claims E buf claims acct_kp

/-- The accumulator as §4.2 of the spec words it: every code entry's full
payload, EVERY data entry's payload, and every custom section's payload
whose name is not reserved, concatenated in scan order. Written from the
spec's words, to be compared against the source-derived accumulator. -/
def spec_section_concat : Module → Bytes
  | [] => []
  | .codeSectionEntry body :: rest => body ++ spec_section_concat rest
  | .dataSection entries :: rest => entries.flatten ++ spec_section_concat rest
  | .customSection n d :: rest =>
      (if n ≠ SECTION_JWT ∧ n ≠ SECTION_WC_JWT then d else []) ++ spec_section_concat rest
  | .other :: rest => spec_section_concat rest

/-! ## Concrete instances of the external collaborators

These executable instances are used to evaluate the theorems at concrete
inputs. The digest is instantiated with the identity function (the
theorems below never rely on any property of the digest that the identity
lacks); the UTF-8 codec is instantiated codepoint-wise, which agrees with
UTF-8 on the ASCII tokens used here; the claims codec is instantiated with
finite tables covering exactly the tokens each evaluation touches. -/

/-- Codepoint-wise model of `String::as_bytes` (agrees with UTF-8 on the
ASCII strings used in the concrete evaluations). -/
def strBytes0 (s : String) : Bytes := s.data.map Char.toNat

/-- Codepoint-wise model of `String::from_utf8`: fails on values that are
not valid scalar codepoints. -/
def bytesStr0 (bs : Bytes) : Except ErrorKind String :=
  if bs.all (fun b => b < 55296 || (57343 < b && b < 1114112)) then
    .ok ⟨bs.map Char.ofNat⟩
  else .error .encodingError

/-- Build a concrete collaborator record from a claims-codec table. -/
def mkExt (dec : String → Except ErrorKind Claims)
    (enc : Claims → KeyPair → Except ErrorKind String) (mr : Nat) : Ext :=
  { digest := fun b => b
    strBytes := strBytes0
    bytesStr := bytesStr0
    decode := dec
    encode := enc
    minRev := mr
    wascapRev := mr
    nowSecs := 1000 }

/-- A collaborator record whose codec signs everything as `"T"` and
decodes nothing (every decode attempt is an invalid token). -/
def extT : Ext := mkExt (fun _ => .error .invalidToken) (fun _ _ => .ok "T") 1

/-- A concrete key pair. -/
def kp0 : KeyPair := ⟨"AKEY"⟩

/-! ## Structural lemmas about the scan and the hash accumulator -/

/-- The extractor's scan ignores every payload that is not a claim-carrying
custom section: a prefix free of claim sections can be dropped. -/
theorem extractGo_append_of_no_claim (E : Ext) (contents : Module) (pre rest : List Payload)
    (h : ∀ p ∈ pre, payloadIsClaim p = false) :
    extractGo E contents (pre ++ rest) = extractGo E contents rest := by
  induction pre with
  | nil => rfl
  | cons p ps ih =>
    have hp := h p (List.mem_cons_self p ps)
    have hps : ∀ q ∈ ps, payloadIsClaim q = false := fun q hq => h q (List.mem_cons_of_mem p hq)
    cases p with
    | customSection n d =>
        have hn : ¬ IsClaimName n := by
          intro hc
          simp [payloadIsClaim, hc] at hp
        simp [extractGo, hn, ih hps]
    | codeSectionEntry b => simpa [extractGo] using ih hps
    | dataSection es => simpa [extractGo] using ih hps
    | other => simpa [extractGo] using ih hps

/-- A scan over a stream with no claim section at all returns `none`. -/
theorem extractGo_eq_none_of_no_claim (E : Ext) (contents : Module) (l : List Payload)
    (h : ∀ p ∈ l, payloadIsClaim p = false) :
    extractGo E contents l = .ok none := by
  have := extractGo_append_of_no_claim E contents l [] h
  simpa using this

/-- A reserved-name custom section inserted anywhere contributes nothing to
the hash accumulator. -/
theorem hashAccumGo_insert_claim (n : String) (hn : IsClaimName n) (d : Bytes)
    (l r : List Payload) (acc : Bytes) :
    hashAccumGo (l ++ .customSection n d :: r) acc = hashAccumGo (l ++ r) acc := by
  induction l generalizing acc with
  | nil =>
      have hskip : ¬(n ≠ SECTION_JWT ∧ n ≠ SECTION_WC_JWT) := by
        rcases hn with h | h <;> simp [h]
      simp [hashAccumGo, hskip]
  | cons p ps ih =>
      cases p with
      | codeSectionEntry b => simp [hashAccumGo, ih]
      | dataSection es => cases es <;> simp [hashAccumGo, ih]
      | customSection m e =>
          by_cases hm : m ≠ SECTION_JWT ∧ m ≠ SECTION_WC_JWT <;> simp [hashAccumGo, hm, ih]
      | other => simp [hashAccumGo, ih]

/-- A reserved-name custom section inserted anywhere leaves the canonical
hash unchanged — the exclusion rule of §4.2. -/
theorem compute_hash_insert_claim (E : Ext) (l r : List Payload) (n : String)
    (hn : IsClaimName n) (d : Bytes) :
    compute_hash_without_jwt E (l ++ .customSection n d :: r) =
      compute_hash_without_jwt E (l ++ r) := by
  unfold compute_hash_without_jwt
  rw [hashAccumGo_insert_claim n hn d l r []]

/-- Appending a reserved-name custom section leaves the canonical hash
unchanged. -/
theorem compute_hash_append_claim (E : Ext) (M : Module) (n : String)
    (hn : IsClaimName n) (d : Bytes) :
    compute_hash_without_jwt E (M ++ [.customSection n d]) =
      compute_hash_without_jwt E M := by
  have := compute_hash_insert_claim E M [] n hn d
  simpa using this

/-- Processing a found claim section depends on the module only through its
canonical hash. -/
theorem processClaimSection_congr (E : Ext) (M M2 : Module) (d : Bytes)
    (h : compute_hash_without_jwt E M = compute_hash_without_jwt E M2) :
    processClaimSection E M d = processClaimSection E M2 d := by
  unfold processClaimSection
  rw [h]

/-- The extractor resolves to the first reserved-name custom section of the
stream: on a module whose prefix holds no claim section, extraction equals
the processing of that first claim section. -/
theorem extract_first_claim (E : Ext) (pre rest : List Payload) (n : String) (d : Bytes)
    (hpre : ∀ p ∈ pre, payloadIsClaim p = false) (hn : IsClaimName n) :
    extract_claims E (pre ++ .customSection n d :: rest) =
      processClaimSection E (pre ++ .customSection n d :: rest) d := by
  unfold extract_claims
  rw [extractGo_append_of_no_claim E _ pre _ hpre]
  simp [extractGo, hn]

/-! ## Concrete claim records for the evaluations -/

/-- A claim record without integrity metadata. -/
def claims0 : Claims :=
  { id := ""
    issuer := "AKEY"
    subject := "test.wasm"
    issued_at := 0
    expires := none
    not_before := none
    wascap_revision := some 1
    metadata := none }

/-- Integrity metadata whose recorded hash is the canonical hash of the
empty module (the empty uppercase-hex string). -/
def actorA : Actor :=
  { name := "testing"
    module_hash := ""
    caps := some ["messaging", "kv"]
    tags := some []
    provider := false
    rev := some 1
    ver := some ""
    call_alias := none }

/-- A valid claim record (metadata present, revision at the threshold). -/
def claimsA : Claims := { claims0 with metadata := some actorA }

/-- A collaborator record whose codec signs everything as `"T"` and decodes
`"T"` back to `claimsA`. -/
def extA : Ext :=
  mkExt (fun s => if s = "T" then .ok claimsA else .error .invalidToken)
    (fun _ _ => .ok "T") 1

/-- Integrity metadata recording the hash `"FF"` (mismatching the canonical
hash of the modules used below). -/
def actor4 : Actor := { actorA with module_hash := "FF" }

/-- A claim record with a mismatching recorded hash and revision 1. -/
def claims4 : Claims := { claims0 with metadata := some actor4 }

/-- A collaborator record whose codec decodes `"A"` to `claims4`. -/
def ext4 : Ext :=
  mkExt (fun s => if s = "A" then .ok claims4 else .error .invalidToken)
    (fun _ _ => .ok "A") 1

/-- A claim record with a mismatching recorded hash and NO revision marker. -/
def claims9 : Claims :=
  { claims0 with metadata := some actor4, wascap_revision := none }

/-- A collaborator record whose codec decodes `"B"` to `claims9`. -/
def ext9 : Ext :=
  mkExt (fun s => if s = "B" then .ok claims9 else .error .invalidToken)
    (fun _ _ => .ok "B") 1

/-- A collaborator record whose codec decodes `"T"` to the metadata-free
record `claims0`. -/
def ext0m : Ext :=
  mkExt (fun s => if s = "T" then .ok claims0 else .error .invalidToken)
    (fun _ _ => .ok "T") 1

/-- Integrity metadata recording the hash `"00"` (the canonical hash of a
module whose first data entry is the byte 0, under the identity digest). -/
def actor5 : Actor := { actorA with module_hash := "00" }

/-- A claim record recording hash `"00"`, revision at the threshold. -/
def claims5 : Claims := { claims0 with metadata := some actor5 }

/-- A collaborator record whose codec signs everything as `"T"` and decodes
`"T"` back to `claims5`. -/
def ext5 : Ext :=
  mkExt (fun s => if s = "T" then .ok claims5 else .error .invalidToken)
    (fun _ _ => .ok "T") 1

/-! ## The claims -/

/-- C2: for every module M, claim record C and key pair K on which
`embed_claims` succeeds, the canonical hash of the embedded module equals
the canonical hash of M — the appended claim-carrying custom section is
excluded from hashing, so embedding never perturbs the canonical hash. -/
theorem C2_hash_stable (E : Ext) (M : Module) (c : Claims) (kp : KeyPair) (out : Module)
    (h : embed_claims E M c kp = .ok out) :
    compute_hash_without_jwt E out = compute_hash_without_jwt E M := by
  unfold embed_claims at h
  split at h
  · exact absurd h (by simp)
  · split at h
    · exact absurd h (by simp)
    · injection h with h
      rw [← h, compute_hash_append_claim E M SECTION_WC_JWT (Or.inr rfl)]

/-- Witness for C2 at a concrete input: embedding `claims0` into the empty
module succeeds, and the canonical hash of the result equals the canonical
hash of the empty module. -/
theorem C2_hash_stable_witness :
    embed_claims extT [] claims0 kp0 = .ok [.customSection SECTION_WC_JWT [84]] ∧
    compute_hash_without_jwt extT [.customSection SECTION_WC_JWT [84]] =
      compute_hash_without_jwt extT [] :=
  ⟨by decide, C2_hash_stable extT [] claims0 kp0 [.customSection SECTION_WC_JWT [84]] (by decide)⟩

/-- C6: a well-formed module containing no custom section named with either
reserved claim-section name extracts to the absent value, never an error. -/
theorem C6_no_claim_none (E : Ext) (M : Module)
    (h : ∀ p ∈ M, payloadIsClaim p = false) :
    extract_claims E M = .ok none :=
  extractGo_eq_none_of_no_claim E M M h

/-- Witness for C6 at a concrete input (including an empty data section,
which makes hashing fail — yet extraction still returns `none`). -/
theorem C6_no_claim_none_witness :
    (∀ p ∈ ([.codeSectionEntry [0], .dataSection [], .customSection "name" [1], .other] :
      Module), payloadIsClaim p = false) ∧
    extract_claims extT [.codeSectionEntry [0], .dataSection [], .customSection "name" [1],
      .other] = .ok none :=
  ⟨by decide, C6_no_claim_none extT _ (by decide)⟩

/-- C4: when the first claim section of a module decodes to a record with
metadata whose recorded hash differs from the computed canonical hash,
extraction fails with `InvalidModuleHash` if the record's revision marker
is at or above the minimum threshold, and accepts (returning the token) if
the marker is below the threshold. -/
theorem C4_hash_mismatch_branches (E : Ext) (pre rest : List Payload) (n : String)
    (d : Bytes) (jwt hm : String) (c : Claims) (meta : Actor)
    (hpre : ∀ p ∈ pre, payloadIsClaim p = false)
    (hn : IsClaimName n)
    (hutf : E.bytesStr d = .ok jwt)
    (hdec : E.decode jwt = .ok c)
    (hmeta : c.metadata = some meta)
    (hhash : compute_hash_without_jwt E (pre ++ .customSection n d :: rest) = .ok hm)
    (hne : meta.module_hash ≠ hm) :
    (c.wascap_revision.getD 0 ≥ E.minRev →
        extract_claims E (pre ++ .customSection n d :: rest) = .error .invalidModuleHash) ∧
    (c.wascap_revision.getD 0 < E.minRev →
        extract_claims E (pre ++ .customSection n d :: rest) = .ok (some ⟨jwt, c⟩)) := by
  have hx := extract_first_claim E pre rest n d hpre hn
  constructor
  · intro hge
    rw [hx]
    unfold processClaimSection
    simp only [hutf, hdec, hhash, hmeta]
    rw [if_pos ⟨hne, hge⟩]
  · intro hlt
    rw [hx]
    unfold processClaimSection
    simp only [hutf, hdec, hhash, hmeta]
    have hcond : ¬(meta.module_hash ≠ hm ∧ c.wascap_revision.getD 0 ≥ E.minRev) := by
      rintro ⟨-, h2⟩
      exact absurd h2 (not_le.mpr hlt)
    rw [if_neg hcond]

/-- Witness for C4 at a concrete input: the recorded hash `"FF"` mismatches
the computed hash `""` and the revision marker 1 meets the threshold 1, so
extraction fails with `InvalidModuleHash`. -/
theorem C4_hash_mismatch_branches_witness :
    extract_claims ext4 [.customSection "jwt" [65]] = .error .invalidModuleHash :=
  (C4_hash_mismatch_branches ext4 [] [] "jwt" [65] "A" "" claims4 actor4
    (by decide) (by decide) (by decide) (by decide) (by decide) (by decide) (by decide)).1
    (by decide)

/-- C9: a decoded claim carrying integrity metadata but no revision marker
at all is treated as revision 0; with a positive minimum threshold, a
recorded-hash mismatch is then accepted and the token returned. -/
theorem C9_absent_revision_accepted (E : Ext) (pre rest : List Payload) (n : String)
    (d : Bytes) (jwt hm : String) (c : Claims) (meta : Actor)
    (hpre : ∀ p ∈ pre, payloadIsClaim p = false)
    (hn : IsClaimName n)
    (hutf : E.bytesStr d = .ok jwt)
    (hdec : E.decode jwt = .ok c)
    (hmeta : c.metadata = some meta)
    (hrev : c.wascap_revision = none)
    (hhash : compute_hash_without_jwt E (pre ++ .customSection n d :: rest) = .ok hm)
    (hne : meta.module_hash ≠ hm)
    (hmin : 0 < E.minRev) :
    extract_claims E (pre ++ .customSection n d :: rest) = .ok (some ⟨jwt, c⟩) := by
  refine (C4_hash_mismatch_branches E pre rest n d jwt hm c meta hpre hn hutf hdec hmeta
    hhash hne).2 ?_
  rw [hrev]
  simpa using hmin

/-- Witness for C9 at a concrete input: `claims9` has no revision marker and
records hash `"FF"` ≠ computed `""`, yet extraction accepts. -/
theorem C9_absent_revision_accepted_witness :
    extract_claims ext9 [.customSection "jwt" [66]] = .ok (some ⟨"B", claims9⟩) :=
  C9_absent_revision_accepted ext9 [] [] "jwt" [66] "B" "" claims9 actor4
    (by decide) (by decide) (by decide) (by decide) (by decide) (by decide) (by decide)
    (by decide) (by decide)

/-- C7: on a module carrying claim sections under both reserved names, the
extractor resolves to the one appearing first in scan order, and the later
claim section is ignored — replacing its data does not change the result. -/
theorem C7_first_claim_wins (E : Ext) (pre mid post : List Payload) (n1 n2 : String)
    (d1 d2 d2x : Bytes)
    (hpre : ∀ p ∈ pre, payloadIsClaim p = false)
    (h1 : IsClaimName n1) (h2 : IsClaimName n2) :
    extract_claims E (pre ++ .customSection n1 d1 :: (mid ++ .customSection n2 d2 :: post)) =
      processClaimSection E
        (pre ++ .customSection n1 d1 :: (mid ++ .customSection n2 d2 :: post)) d1 ∧
    extract_claims E (pre ++ .customSection n1 d1 :: (mid ++ .customSection n2 d2 :: post)) =
      extract_claims E
        (pre ++ .customSection n1 d1 :: (mid ++ .customSection n2 d2x :: post)) := by
  have e1 := extract_first_claim E pre (mid ++ .customSection n2 d2 :: post) n1 d1 hpre h1
  have e2 := extract_first_claim E pre (mid ++ .customSection n2 d2x :: post) n1 d1 hpre h1
  refine ⟨e1, ?_⟩
  have hh1 := compute_hash_insert_claim E (pre ++ .customSection n1 d1 :: mid) post n2 h2 d2
  have hh2 := compute_hash_insert_claim E (pre ++ .customSection n1 d1 :: mid) post n2 h2 d2x
  have hhash :
      compute_hash_without_jwt E
          (pre ++ .customSection n1 d1 :: (mid ++ .customSection n2 d2 :: post)) =
        compute_hash_without_jwt E
          (pre ++ .customSection n1 d1 :: (mid ++ .customSection n2 d2x :: post)) := by
    have := hh1.trans hh2.symm
    simpa [List.append_assoc] using this
  rw [e1, e2]
  exact processClaimSection_congr E _ _ d1 hhash

/-- Witness for C7 at a concrete input: a module carrying both a legacy
`"jwt"` section and a primary-name section resolves to the first one, and
replacing the later section's data changes nothing. -/
theorem C7_first_claim_wins_witness :
    extract_claims ext4 [.customSection "jwt" [65], .customSection "wasmcloud_jwt" [66]] =
      processClaimSection ext4
        [.customSection "jwt" [65], .customSection "wasmcloud_jwt" [66]] [65] ∧
    extract_claims ext4 [.customSection "jwt" [65], .customSection "wasmcloud_jwt" [66]] =
      extract_claims ext4
        [.customSection "jwt" [65], .customSection "wasmcloud_jwt" [67]] :=
  C7_first_claim_wins ext4 [] [] [] "jwt" "wasmcloud_jwt" [65] [66] [67]
    (by decide) (by decide) (by decide)

/-- Counterexample to C8 as stated: the conversion is `u64` arithmetic, so
at a day count making now + d·86400 overflow 64 bits the program returns
the wrapped value, not the mathematical sum the claim states. With the
clock at 1000 and d = 2^63, `days_from_now_to_jwt_time` yields the sum
reduced modulo 2^64, which differs from the exact sum. -/
theorem C8_wrap_counterexample :
    days_from_now_to_jwt_time extT (some (2 ^ 63)) =
      some ((extT.nowSecs + 2 ^ 63 * 86400) % 2 ^ 64) ∧
    days_from_now_to_jwt_time extT (some (2 ^ 63)) ≠
      some (extT.nowSecs + 2 ^ 63 * 86400) := by
  decide

/-- C8 (amended): given the wall-clock time, `days_from_now_to_jwt_time`
maps `some d` to now + d·86400 computed in wrapping 64-bit arithmetic
(i.e. reduced modulo 2^64 — equal to the exact sum whenever that sum fits
in a `u64`) and maps `none` to `none`, and `sign_buffer_with_claims`
builds its claim record with exactly this conversion applied to both
`not_before_days` and `expires_in_days` before delegating to
`embed_claims`. -/
theorem C8_day_conversion_amended (E : Ext) (d : Nat) (name : String) (buf : Module)
    (mod_kp acct_kp : KeyPair) (expires_in_days not_before_days : Option Nat)
    (caps tags : List String) (provider : Bool) (rev : Option Int)
    (ver : Option String) (call_alias : Option String) :
    days_from_now_to_jwt_time E (some d) = some ((E.nowSecs + d * 86400) % 2 ^ 64) ∧
    days_from_now_to_jwt_time E none = none ∧
    (E.nowSecs + d * 86400 < 2 ^ 64 →
      days_from_now_to_jwt_time E (some d) = some (E.nowSecs + d * 86400)) ∧
    ∃ c : Claims,
      sign_buffer_with_claims E name buf mod_kp acct_kp expires_in_days not_before_days
          caps tags provider rev ver call_alias = embed_claims E buf c acct_kp ∧
      c.not_before = days_from_now_to_jwt_time E not_before_days ∧
      c.expires = days_from_now_to_jwt_time E expires_in_days :=
  ⟨rfl, rfl,
    fun h => congrArg some (Nat.mod_eq_of_lt h),
    Claims.with_dates E name acct_kp.public_key mod_kp.public_key (some caps) (some tags)
      (days_from_now_to_jwt_time E not_before_days)
      (days_from_now_to_jwt_time E expires_in_days) provider rev ver call_alias,
    rfl, rfl, rfl⟩

/-- Witness for C8 (amended) at a concrete input: with the clock at 1000
and d = 2, the sum fits in a `u64` and the conversion returns it exactly. -/
theorem C8_day_conversion_amended_witness :
    days_from_now_to_jwt_time extT (some 2) = some (extT.nowSecs + 2 * 86400) :=
  (C8_day_conversion_amended extT 2 "n" [] kp0 kp0 none none [] [] false none none
    none).2.2.1 (by decide)

/-- C1 (amended): for every module M containing no reserved-name custom
section and whose canonical hash computes, every claim record C with
metadata present, and every key pair — with the external codec behaving
per its contract on the produced token (signing succeeds, UTF-8 and the
claims codec round-trip it) — extraction after embedding returns a present
token whose decoded issuer, subject and capability list equal those of C. -/
theorem C1_roundtrip_amended (E : Ext) (M : Module) (c : Claims) (kp : KeyPair)
    (tok hm : String)
    (hpre : ∀ p ∈ M, payloadIsClaim p = false)
    (hhash : compute_hash_without_jwt E M = .ok hm)
    (hmeta : c.metadata.isSome)
    (henc : E.encode (withHash c hm) kp = .ok tok)
    (hutf : E.bytesStr (E.strBytes tok) = .ok tok)
    (hdec : E.decode tok = .ok (withHash c hm)) :
    embed_claims E M c kp = .ok (M ++ [.customSection SECTION_WC_JWT (E.strBytes tok)]) ∧
    extract_claims E (M ++ [.customSection SECTION_WC_JWT (E.strBytes tok)]) =
      .ok (some ⟨tok, withHash c hm⟩) ∧
    (withHash c hm).issuer = c.issuer ∧
    (withHash c hm).subject = c.subject ∧
    (withHash c hm).metadata.map Actor.caps = c.metadata.map Actor.caps := by
  obtain ⟨a, ha⟩ := Option.isSome_iff_exists.mp hmeta
  have hembed : embed_claims E M c kp =
      .ok (M ++ [.customSection SECTION_WC_JWT (E.strBytes tok)]) := by
    unfold embed_claims
    simp only [hhash, henc]
  refine ⟨hembed, ?_, rfl, rfl, ?_⟩
  · have hfirst := extract_first_claim E M [] SECTION_WC_JWT (E.strBytes tok) hpre (Or.inr rfl)
    rw [hfirst]
    unfold processClaimSection
    have hh2 : compute_hash_without_jwt E
        (M ++ [.customSection SECTION_WC_JWT (E.strBytes tok)]) = .ok hm := by
      rw [compute_hash_append_claim E M SECTION_WC_JWT (Or.inr rfl)]
      exact hhash
    have hmd : (withHash c hm).metadata = some { a with module_hash := hm } := by
      simp [withHash, ha]
    simp only [hutf, hdec, hh2, hmd]
    rw [if_neg (fun hcond => hcond.1 rfl)]
  · simp [withHash, ha]

/-- Counterexample to C1 as stated: the claim quantifies over EVERY module
M, but the extractor resolves the first reserved-name section in scan
order while the embedder appends at the end, so a pre-existing claim
section shadows the fresh token. Here M already carries a `"jwt"` section
whose payload `"&"` is no token: embedding the valid record `claimsA`
succeeds, yet extraction hits the stale section and fails with an invalid
token error instead of returning the freshly embedded token. -/
theorem C1_counterexample :
    claimsA.metadata.isSome = true ∧
    embed_claims extA [.customSection "jwt" [38]] claimsA kp0 =
      .ok [.customSection "jwt" [38], .customSection SECTION_WC_JWT [84]] ∧
    extract_claims extA [.customSection "jwt" [38], .customSection SECTION_WC_JWT [84]] =
      .error .invalidToken := by decide

/-- Witness for C1 (amended) at a concrete input: embedding `claimsA` into
the empty module and extracting recovers issuer, subject and capability
list. -/
theorem C1_roundtrip_amended_witness :
    embed_claims extA [] claimsA kp0 =
      .ok ([] ++ [.customSection SECTION_WC_JWT (extA.strBytes "T")]) ∧
    extract_claims extA ([] ++ [.customSection SECTION_WC_JWT (extA.strBytes "T")]) =
      .ok (some ⟨"T", withHash claimsA ""⟩) ∧
    (withHash claimsA "").issuer = claimsA.issuer ∧
    (withHash claimsA "").subject = claimsA.subject ∧
    (withHash claimsA "").metadata.map Actor.caps = claimsA.metadata.map Actor.caps :=
  C1_roundtrip_amended extA [] claimsA kp0 "T" "" (by decide) (by decide) (by decide)
    (by decide) (by decide) (by decide)

/-- C10 (amended): on a module with a computable hash and no pre-existing
reserved-name section, embedding a claim record whose metadata is absent
succeeds when signing succeeds, the record is signed UNCHANGED (the hash
overwrite is a no-op, so no hash is recorded anywhere), and a subsequent
extraction fails with `InvalidAlgorithm`. -/
theorem C10_absent_metadata_amended (E : Ext) (M : Module) (c : Claims) (kp : KeyPair)
    (tok hm : String)
    (hpre : ∀ p ∈ M, payloadIsClaim p = false)
    (hhash : compute_hash_without_jwt E M = .ok hm)
    (hmeta : c.metadata = none)
    (henc : E.encode c kp = .ok tok)
    (hutf : E.bytesStr (E.strBytes tok) = .ok tok)
    (hdec : E.decode tok = .ok c) :
    withHash c hm = c ∧
    embed_claims E M c kp = .ok (M ++ [.customSection SECTION_WC_JWT (E.strBytes tok)]) ∧
    extract_claims E (M ++ [.customSection SECTION_WC_JWT (E.strBytes tok)]) =
      .error .invalidAlgorithm := by
  have hwh : withHash c hm = c := by
    unfold withHash
    rw [hmeta]
    simp only [Option.map_none']
    rw [← hmeta]
  have hembed : embed_claims E M c kp =
      .ok (M ++ [.customSection SECTION_WC_JWT (E.strBytes tok)]) := by
    unfold embed_claims
    simp only [hhash, hwh, henc]
  refine ⟨hwh, hembed, ?_⟩
  have hfirst := extract_first_claim E M [] SECTION_WC_JWT (E.strBytes tok) hpre (Or.inr rfl)
  rw [hfirst]
  unfold processClaimSection
  have hh2 : compute_hash_without_jwt E
      (M ++ [.customSection SECTION_WC_JWT (E.strBytes tok)]) = .ok hm := by
    rw [compute_hash_append_claim E M SECTION_WC_JWT (Or.inr rfl)]
    exact hhash
  simp only [hutf, hdec, hh2, hmeta]

/-- Counterexample to C10 as stated: the claim says embedding a
metadata-free record "succeeds without error" for every module, but on a
module whose data section is empty the hash computation itself fails (the
single `reader.read()` call errors), so `embed_claims` returns an error. -/
theorem C10_counterexample :
    claims0.metadata = none ∧
    embed_claims extT [.dataSection []] claims0 kp0 = .error .malformedContainer := by
  decide

/-- Witness for C10 (amended) at a concrete input: embedding the
metadata-free `claims0` into the empty module succeeds unchanged, and
extraction fails with `InvalidAlgorithm`. -/
theorem C10_absent_metadata_amended_witness :
    withHash claims0 "" = claims0 ∧
    embed_claims ext0m [] claims0 kp0 =
      .ok ([] ++ [.customSection SECTION_WC_JWT (ext0m.strBytes "T")]) ∧
    extract_claims ext0m ([] ++ [.customSection SECTION_WC_JWT (ext0m.strBytes "T")]) =
      .error .invalidAlgorithm :=
  C10_absent_metadata_amended ext0m [] claims0 kp0 "T" "" (by decide) (by decide)
    (by decide) (by decide) (by decide) (by decide)

/-- C3 is violated by the code: `compute_hash_without_jwt` calls
`reader.read()` exactly once on a data section, so only the FIRST data
entry's payload enters the digest, while the claim (and §4.2 of the spec)
requires every data entry's payload. On a module whose data section holds
the two entries `[1]` and `[2]`, the code digests `[1]` (hash `"01"` under
the identity digest) whereas the claimed concatenation is `[1, 2]` (hash
`"0102"`); on an empty data section the code's hash computation errors. -/
theorem C3_data_entries_dropped :
    compute_hash_without_jwt extT [.dataSection [[1], [2]]] = .ok "01" ∧
    hexUpper (extT.digest (spec_section_concat [.dataSection [[1], [2]]])) = "0102" ∧
    ("01" : String) ≠ "0102" ∧
    compute_hash_without_jwt extT [.dataSection []] = .error .malformedContainer := by
  decide

/-- C5 is violated by the code: because only the first data entry of a data
section is hashed, flipping a byte inside any LATER data entry leaves the
canonical hash unchanged, and extraction of the tampered module succeeds
instead of failing with `InvalidModuleHash` — even though the claim's
revision marker (1) meets the minimum threshold (1). Here the module's
data section holds entries `[0]` and `[7]`; after embedding, the byte 7 is
changed to 8 and extraction still accepts. -/
theorem C5_tamper_not_detected :
    embed_claims ext5 [.dataSection [[0], [7]]] claims5 kp0 =
      .ok [.dataSection [[0], [7]], .customSection SECTION_WC_JWT [84]] ∧
    claims5.wascap_revision.getD 0 ≥ ext5.minRev ∧
    extract_claims ext5 [.dataSection [[0], [8]], .customSection SECTION_WC_JWT [84]] =
      .ok (some ⟨"T", claims5⟩) := by
  decide

end Wascap
